import Mathlib

/-!
# Verification of the Form1Analysis loader and ROE query

Shallow embedding of `src/import_zip.py` (the FERC Form 1 archive ingestion
loader) and of the final stage of the ROE calculation query in
`src/analyse_roe.py`, together with theorems settling the frozen claims.

Modelling conventions:
* DBF cell values are modelled as integers (`Int`); only the `year` tag and
  value identity matter to the claims.
* A pandas `DataFrame` is a list of column names plus a list of rows.
* Python `str.lower` is modelled character-wise with `Char.toLower`
  (all names occurring in this data set are ASCII).
* The SQLite store is an association list from table name to accumulated
  `DataFrame`.  `to_sql(..., if_exists='append')` creates the table when it
  is absent and appends when it is present; appending to a table whose
  column list differs raises, which the loader catches per file.  (The real
  pandas/SQLite stack tolerates some mismatches, e.g. missing columns become
  NULL; no claim depends on that refinement, only on the outcome being a
  deterministic function of the existing table's schema.)
* SQLite cannot represent a table with two columns of the same name
  (`CREATE TABLE` raises `duplicate column name`), so a frame whose labels
  collide after lowercasing — e.g. a `YEAR` field next to the added `year`
  tag — never reaches the store with its duplicates; such a write is
  modelled as the raised error, caught by the per-file handler.
* SQLAlchemy's `create_engine` is lazy and never opens the database file;
  an unwritable store location therefore fails at each `to_sql` call,
  inside the per-file `try`.  The `Store`-level pipeline makes this state
  explicit and is proved to mirror the `Database`-level pipeline on
  writable stores.
* Exceptions are modelled with `Except String`; the per-file `try/except`
  of `import_zip.py` is the split `processFileBody` / `tryProcessFile`.
-/

namespace Form1

/-- Character-wise lowercasing, modelling Python `str.lower()` /
pandas `str.lower()` on the ASCII names occurring in this repository. -/
def lowerStr (s : String) : String :=
  ⟨s.data.map Char.toLower⟩

/-- `suffix`-test on strings, modelling Python `str.endswith`. -/
def endsWithStr (s suf : String) : Bool :=
  suf.data.isSuffixOf s.data

/-- The stem of `os.path.splitext`: everything before the last dot, except
that a name whose characters before its last dot are all dots has no
extension (CPython's leading-dot rule, e.g. `'.dbf'` has stem `'.dbf'`). -/
def splitextStemAux (cs : List Char) : List Char :=
  match ((List.range cs.length).filter (fun i => cs.get? i = some '.')).getLast? with
  | none => cs
  | some d => if (List.range d).all (fun i => cs.get? i = some '.') then cs else cs.take d

/-- `os.path.splitext(filename)[0]` for a bare file name. -/
def splitextStem (s : String) : String :=
  ⟨splitextStemAux s.data⟩

/-- The in-memory tabular structure built by `pd.DataFrame(iter(dbf_table))`:
ordered column names and rows of cell values. -/
structure DataFrame where
  cols : List String
  rows : List (List Int)
deriving DecidableEq, Repr

/-- `df.empty`: a pandas frame is empty when either axis has extent zero. -/
def dfEmpty (df : DataFrame) : Bool :=
  df.rows.isEmpty || df.cols.isEmpty

/-- `df['year'] = year` (line 73 of `import_zip.py`): overwrite every column
named exactly `year` when one exists, otherwise append a new `year` column
at the end of the frame. -/
def setYearColumn (df : DataFrame) (year : Int) : DataFrame :=
  if "year" ∈ df.cols then
    ⟨df.cols, df.rows.map (fun r => (df.cols.zip r).map
      (fun p => if p.1 = "year" then year else p.2))⟩
  else
    ⟨df.cols ++ ["year"], df.rows.map (fun r => r ++ [year])⟩

/-- `df.columns = df.columns.str.lower()` (line 76 of `import_zip.py`). -/
def lowercaseColumns (df : DataFrame) : DataFrame :=
  ⟨df.cols.map lowerStr, df.rows⟩

/-- The normalization the loader applies before writing: year tagging
(line 73) followed by column-name lowercasing (line 76). -/
def normalizeDf (df : DataFrame) (year : Int) : DataFrame :=
  lowercaseColumns (setYearColumn df year)

/-- The rows of a frame as field-name/value records. -/
def DataFrame.records (df : DataFrame) : List (List (String × Int)) :=
  df.rows.map (fun r => df.cols.zip r)

/-- The destination store: table name to accumulated frame, in creation
order (SQLite database file `ferc_form1.db`). -/
abbrev Database := List (String × DataFrame)

/-- Lookup of a table by name. -/
def dbFind : Database → String → Option DataFrame
  | [], _ => none
  | (n, t) :: rest, name => if n = name then some t else dbFind rest name

/-- Replace the frame stored under an existing table name. -/
def dbReplace : Database → String → DataFrame → Database
  | [], _, _ => []
  | (n, t) :: rest, name, df =>
      if n = name then (n, df) :: rest else (n, t) :: dbReplace rest name df

/-- `df.to_sql(name, con, if_exists='append', index=False)` (lines 84-89):
create the table when absent, append rows when present with the same
column list, raise otherwise.  A SQLite table cannot carry two columns of
the same name (`CREATE TABLE` raises `duplicate column name`), so a frame
whose labels collide — e.g. the two `year` labels produced by lowercasing
a `YEAR` field next to the added tag — is never stored with its
duplicates; its write is modelled as the raised error, caught by the
per-file handler. -/
def toSql (db : Database) (name : String) (df : DataFrame) :
    Except String Database :=
  if df.cols.Nodup then
    match dbFind db name with
    | none => .ok (db ++ [(name, df)])
    | some t =>
        if t.cols = df.cols then
          .ok (dbReplace db name ⟨t.cols, t.rows ++ df.rows⟩)
        else
          .error ("schema mismatch on table " ++ name)
  else .error ("duplicate column name on table " ++ name)

/-- Number of rows currently stored in a table (0 when absent). -/
def rowCount (db : Database) (name : String) : Nat :=
  match dbFind db name with
  | none => 0
  | some t => t.rows.length

/-- Column list currently stored for a table, when present. -/
def colsAt (db : Database) (name : String) : Option (List String) :=
  (dbFind db name).map DataFrame.cols

/-- What a single legacy `.dbf` file yields when read: its field list and
row list, or a read failure (`DBF(...)` / iteration raising). -/
inductive FileData where
  | ok (fields : List String) (rows : List (List Int))
  | corrupt
deriving DecidableEq, Repr

/-- A directory entry of a year's `working` directory. -/
structure FileEntry where
  filename : String
  data : FileData
deriving DecidableEq, Repr

/-- The filter of line 45: `f.lower().endswith('.dbf')`. -/
def isDbf (f : FileEntry) : Bool :=
  endsWithStr (lowerStr f.filename) ".dbf"

/-- Destination table identity (line 59): base name, extension stripped,
lowercased. -/
def tableNameOf (filename : String) : String :=
  lowerStr (splitextStem filename)

/-- The diagnostics the loader prints that the claims are about. -/
inductive Msg where
  | warnMissingDir (year : Int)
  | warnNoFiles (year : Int)
  | infoEmpty (filename : String)
  | errorFile (filename : String) (year : Int)
deriving DecidableEq, Repr

/-- The body of the per-file `try` block (lines 55-89): read the file,
skip it when empty, otherwise normalize and write.  Any raised exception
is an `Except.error`. -/
def processFileBody (year : Int) (db : Database) (f : FileEntry) :
    Except String (Database × List Msg) :=
  match f.data with
  | .corrupt => .error ("read failure: " ++ f.filename)
  | .ok fields rows =>
      let df : DataFrame := ⟨fields, rows⟩
      if dfEmpty df then .ok (db, [.infoEmpty f.filename])
      else
        (toSql db (tableNameOf f.filename) (normalizeDf df year)).map
          (fun db' => (db', []))

/-- One iteration of the per-file loop with its `except` clause
(lines 91-92): a failure leaves the store untouched and reports the
file name and year. -/
def tryProcessFile (year : Int) (db : Database) (f : FileEntry) :
    Database × List Msg :=
  match processFileBody year db f with
  | .ok r => r
  | .error _ => (db, [.errorFile f.filename year])

/-- The per-file loop over one year's `.dbf` files (line 54). -/
def runFiles (year : Int) (db : Database) : List FileEntry → Database × List Msg
  | [] => (db, [])
  | f :: fs =>
      let p := tryProcessFile year db f
      let rest := runFiles year p.1 fs
      (rest.1, p.2 ++ rest.2)

/-- The filesystem visible to a run: for each year either its `working`
directory listing, or nothing when `os.path.exists` is false. -/
abbrev FS := List (Int × List FileEntry)

/-- `os.path.exists` + listing for a year's working directory. -/
def fsFind : FS → Int → Option (List FileEntry)
  | [], _ => none
  | (y, es) :: rest, year => if y = year then some es else fsFind rest year

/-- One iteration of the per-year loop (lines 32-49): missing directory and
no-`.dbf`-files cases warn and skip, otherwise every `.dbf` file is
processed. -/
def processYear (fs : FS) (db : Database) (year : Int) : Database × List Msg :=
  match fsFind fs year with
  | none => (db, [.warnMissingDir year])
  | some entries =>
      let dbfFiles := entries.filter isDbf
      if dbfFiles.isEmpty then (db, [.warnNoFiles year])
      else runFiles year db dbfFiles

/-- The main processing loop over `YEARS_TO_PROCESS`. -/
def runLoader (fs : FS) (years : List Int) (db : Database) :
    Database × List Msg :=
  match years with
  | [] => (db, [])
  | y :: ys =>
      let p := processYear fs db y
      let rest := runLoader fs ys p.1
      (rest.1, p.2 ++ rest.2)

/-- The store evolution of the loader as a fold over (year, file) units. -/
def runPairs (db : Database) : List (Int × FileEntry) → Database
  | [] => db
  | (y, f) :: rest => runPairs (tryProcessFile y db f).1 rest

/-- All (year, file) units a run processes, in processing order. -/
def traceOf (fs : FS) (years : List Int) : List (Int × FileEntry) :=
  years.flatMap (fun y =>
    match fsFind fs y with
    | none => []
    | some entries => (entries.filter isDbf).map (fun f => (y, f)))


/-! ### The store as the script reaches it

SQLAlchemy's `create_engine` (line 21) is lazy: it builds a URI and never
opens the SQLite file, so line 21 cannot fail for an unwritable store
location.  The failure surfaces only when `df.to_sql` first touches the
file — inside the per-file `try/except`.  The `Store`-level pipeline below
mirrors the `Database`-level one, adding the unwritable state in which
every write raises. -/

/-- The SQLite store as a write reaches it: writable with its current
contents, or at an unwritable location, where every write raises
`unable to open database file`. -/
inductive Store where
  | writable (db : Database)
  | unwritable
deriving DecidableEq, Repr

/-- `df.to_sql` against the store: raises on an unwritable store, behaves
as `toSql` otherwise. -/
def storeToSql (st : Store) (name : String) (df : DataFrame) :
    Except String Store :=
  match st with
  | .unwritable => .error "unable to open database file"
  | .writable db => (toSql db name df).map Store.writable

/-- The per-file `try` body (lines 55-89) over the store. -/
def storeProcessFileBody (year : Int) (st : Store) (f : FileEntry) :
    Except String (Store × List Msg) :=
  match f.data with
  | .corrupt => .error ("read failure: " ++ f.filename)
  | .ok fields rows =>
      let df : DataFrame := ⟨fields, rows⟩
      if dfEmpty df then .ok (st, [.infoEmpty f.filename])
      else
        (storeToSql st (tableNameOf f.filename) (normalizeDf df year)).map
          (fun st' => (st', []))

/-- One iteration of the per-file loop with its `except` clause
(lines 91-92) over the store. -/
def storeTryProcessFile (year : Int) (st : Store) (f : FileEntry) :
    Store × List Msg :=
  match storeProcessFileBody year st f with
  | .ok r => r
  | .error _ => (st, [.errorFile f.filename year])

/-- The per-file loop (line 54) over the store. -/
def storeRunFiles (year : Int) (st : Store) :
    List FileEntry → Store × List Msg
  | [] => (st, [])
  | f :: fs =>
      let p := storeTryProcessFile year st f
      let rest := storeRunFiles year p.1 fs
      (rest.1, p.2 ++ rest.2)

/-- One iteration of the per-year loop (lines 32-49) over the store. -/
def storeProcessYear (fs : FS) (st : Store) (year : Int) : Store × List Msg :=
  match fsFind fs year with
  | none => (st, [.warnMissingDir year])
  | some entries =>
      let dbfFiles := entries.filter isDbf
      if dbfFiles.isEmpty then (st, [.warnNoFiles year])
      else storeRunFiles year st dbfFiles

/-- The main processing loop over the store. -/
def storeRunLoader (fs : FS) (years : List Int) (st : Store) :
    Store × List Msg :=
  match years with
  | [] => (st, [])
  | y :: ys =>
      let p := storeProcessYear fs st y
      let rest := storeRunLoader fs ys p.1
      (rest.1, p.2 ++ rest.2)


/-- The property claimed of every ingested record: any `year` field holds
the Year Identifier and every field name is lowercase. -/
def RecordTaggedLower (year : Int) (rec : List (String × Int)) : Prop :=
  (∀ p ∈ rec, p.1 = "year" → p.2 = year) ∧ (∀ p ∈ rec, lowerStr p.1 = p.1)

instance (year : Int) (rec : List (String × Int)) :
    Decidable (RecordTaggedLower year rec) :=
  inferInstanceAs (Decidable (And _ _))


/-! ### The ROE calculation query (`src/analyse_roe.py`, lines 48-78)

Only the final SELECT of `roe_query` decides claim C10; its input is the
`LaggedEquity` CTE (joined income/equity/name rows with the windowed
previous-year equity).  SQL `REAL` arithmetic is modelled with exact
rationals, and the trailing `ORDER BY`, which only permutes rows, is
omitted. -/

/-- A row of the `LaggedEquity` CTE of `roe_query`. -/
structure LaggedEquityRow where
  respondent : Int
  respondent_name : String
  year : Int
  net_income : ℚ
  total_equity : ℚ
  prev_year_equity : ℚ
deriving DecidableEq, Repr

/-- A row of the final SELECT of `roe_query`. -/
structure RoeResultRow where
  respondent : Int
  respondent_name : String
  year : Int
  net_income : ℚ
  total_equity : ℚ
  prev_year_equity : ℚ
  return_on_equity_pct : Option ℚ
deriving DecidableEq, Repr

/-- `CASE WHEN total_equity > 0 THEN (net_income / total_equity) * 100
ELSE NULL END` (line 74). -/
def roeCase (r : LaggedEquityRow) : Option ℚ :=
  if 0 < r.total_equity then some (r.net_income / r.total_equity * 100)
  else none

/-- The final SELECT of `roe_query` with its
`WHERE return_on_equity_pct IS NOT NULL` (lines 72-76). -/
def roeFinalSelect (rows : List LaggedEquityRow) : List RoeResultRow :=
  (rows.map (fun r =>
    { respondent := r.respondent
      respondent_name := r.respondent_name
      year := r.year
      net_income := r.net_income
      total_equity := r.total_equity
      prev_year_equity := r.prev_year_equity
      return_on_equity_pct := roeCase r })).filter
    (fun o => o.return_on_equity_pct.isSome)

/-- Sample `LaggedEquity` rows: one with positive equity, one with
negative equity. -/
def roeSampleRows : List LaggedEquityRow :=
  [⟨1, "Utility A", 2019, 2, 1, 0⟩, ⟨2, "Utility B", 2019, 3, -1, 0⟩]

/-- The single result row the query returns on `roeSampleRows`. -/
def roeSampleOut : RoeResultRow :=
  ⟨1, "Utility A", 2019, 2, 1, 0, some (2 / 1 * 100)⟩


/-! ### Basic store lemmas -/

theorem dbFind_append_of_isSome {db : Database} {n : String}
    (l : Database) (h : (dbFind db n).isSome) :
    dbFind (db ++ l) n = dbFind db n := by
  induction db with
  | nil => simp [dbFind] at h
  | cons e rest ih =>
      obtain ⟨m, t⟩ := e
      by_cases hm : m = n
      · simp [dbFind, hm]
      · simp only [dbFind, if_neg hm] at h ⊢
        exact ih h

theorem dbFind_append_of_none {db : Database} {n : String}
    (l : Database) (h : dbFind db n = none) :
    dbFind (db ++ l) n = dbFind l n := by
  induction db with
  | nil => simp
  | cons e rest ih =>
      obtain ⟨m, t⟩ := e
      by_cases hm : m = n
      · simp [dbFind, hm] at h
      · simp only [dbFind, if_neg hm] at h ⊢
        exact ih h

theorem dbFind_dbReplace_self {db : Database} {n : String} {t : DataFrame}
    (d : DataFrame) (h : dbFind db n = some t) :
    dbFind (dbReplace db n d) n = some d := by
  induction db with
  | nil => simp [dbFind] at h
  | cons e rest ih =>
      obtain ⟨m, u⟩ := e
      by_cases hm : m = n
      · simp [dbFind, dbReplace, hm]
      · simp only [dbFind, dbReplace, if_neg hm] at h ⊢
        exact ih h

theorem dbFind_dbReplace_ne {n m : String} (db : Database) (d : DataFrame)
    (h : m ≠ n) :
    dbFind (dbReplace db n d) m = dbFind db m := by
  induction db with
  | nil => simp [dbReplace]
  | cons e rest ih =>
      obtain ⟨k, u⟩ := e
      by_cases hk : k = n
      · simp [dbFind, dbReplace, hk, Ne.symm h]
      · by_cases hk2 : k = m
        · simp [dbFind, dbReplace, hk, hk2, h]
        · simp [dbFind, dbReplace, hk, hk2, ih]

theorem toSql_of_dup {db : Database} {n : String} {df : DataFrame}
    (h : ¬ df.cols.Nodup) :
    toSql db n df = Except.error ("duplicate column name on table " ++ n) := by
  unfold toSql
  rw [if_neg h]

theorem toSql_ok_nodup {db : Database} {n : String} {df : DataFrame}
    {db' : Database} (h : toSql db n df = Except.ok db') : df.cols.Nodup := by
  by_cases hn : df.cols.Nodup
  · exact hn
  · rw [toSql_of_dup hn] at h
    cases h

theorem toSql_of_none {db : Database} {n : String} {df : DataFrame}
    (hn : df.cols.Nodup) (h : dbFind db n = none) :
    toSql db n df = Except.ok (db ++ [(n, df)]) := by
  unfold toSql
  rw [if_pos hn, h]

theorem toSql_of_some {db : Database} {n : String} {df old : DataFrame}
    (hn : df.cols.Nodup) (h : dbFind db n = some old) :
    toSql db n df =
      if old.cols = df.cols
      then Except.ok (dbReplace db n ⟨old.cols, old.rows ++ df.rows⟩)
      else Except.error ("schema mismatch on table " ++ n) := by
  unfold toSql
  rw [if_pos hn, h]

/-- Effect of a successful `to_sql` write on every table of the store:
the target is created or extended, every other table is untouched. -/
theorem dbFind_after_toSql {db : Database} {n : String} {df : DataFrame}
    {db' : Database} (h : toSql db n df = Except.ok db') :
    (∀ t, t ≠ n → dbFind db' t = dbFind db t) ∧
    (dbFind db n = none → dbFind db' n = some df) ∧
    (∀ old, dbFind db n = some old →
      dbFind db' n = some ⟨old.cols, old.rows ++ df.rows⟩) := by
  have hn : df.cols.Nodup := toSql_ok_nodup h
  cases hfind : dbFind db n with
  | none =>
      rw [toSql_of_none hn hfind] at h
      injection h with h
      subst h
      refine ⟨fun t ht => ?_, fun _ => ?_, fun old hold => ?_⟩
      · by_cases hs : (dbFind db t).isSome
        · exact dbFind_append_of_isSome _ hs
        · rw [Option.not_isSome_iff_eq_none] at hs
          rw [dbFind_append_of_none _ hs, hs]
          simp [dbFind, Ne.symm ht]
      · rw [dbFind_append_of_none _ hfind]
        simp [dbFind]
      · cases hold
  | some old =>
      rw [toSql_of_some hn hfind] at h
      by_cases hc : old.cols = df.cols
      · rw [if_pos hc] at h
        injection h with h
        subst h
        refine ⟨fun t ht => dbFind_dbReplace_ne db _ ht, fun hnone => ?_,
          fun o ho => ?_⟩
        · cases hnone
        · injection ho with ho
          subst ho
          exact dbFind_dbReplace_self _ hfind
      · rw [if_neg hc] at h
        cases h

theorem toSql_error_of_mismatch {db : Database} {n : String} {df old : DataFrame}
    (hn : df.cols.Nodup) (h : dbFind db n = some old) (hc : old.cols ≠ df.cols) :
    toSql db n df = Except.error ("schema mismatch on table " ++ n) := by
  rw [toSql_of_some hn h, if_neg hc]

theorem colsAt_eq_some {db : Database} {t : String} {c : List String}
    (h : colsAt db t = some c) : ∃ df, dbFind db t = some df ∧ df.cols = c := by
  unfold colsAt at h
  rw [Option.map_eq_some'] at h
  exact h

theorem rowCount_some {db : Database} {t : String} {df : DataFrame}
    (h : dbFind db t = some df) : rowCount db t = df.rows.length := by
  unfold rowCount
  rw [h]

theorem rowCount_none {db : Database} {t : String}
    (h : dbFind db t = none) : rowCount db t = 0 := by
  unfold rowCount
  rw [h]

theorem dbFind_append_single_ne {db : Database} {n s : String}
    (d : DataFrame) (hs : s ≠ n) :
    dbFind (db ++ [(n, d)]) s = dbFind db s := by
  cases h : dbFind db s with
  | some t => rw [dbFind_append_of_isSome _ (by rw [h]; rfl), h]
  | none => rw [dbFind_append_of_none _ h]; simp [dbFind, Ne.symm hs, h]

/-! ### Per-file step equations

`tryProcessFile` is the per-file `try/except`: each equation states what one
iteration of the file loop does in one of the four source-visible cases
(read failure, empty frame, successful write, failed write). -/

theorem tryProcessFile_corrupt (y : Int) (db : Database) (name : String) :
    tryProcessFile y db ⟨name, FileData.corrupt⟩
      = (db, [Msg.errorFile name y]) := rfl

theorem tryProcessFile_empty {fields : List String} {rows : List (List Int)}
    (y : Int) (db : Database) (name : String)
    (he : dfEmpty ⟨fields, rows⟩ = true) :
    tryProcessFile y db ⟨name, FileData.ok fields rows⟩
      = (db, [Msg.infoEmpty name]) := by
  simp [tryProcessFile, processFileBody, he]

theorem tryProcessFile_write {fields : List String} {rows : List (List Int)}
    {y : Int} {db db' : Database} {name : String}
    (he : dfEmpty ⟨fields, rows⟩ = false)
    (hts : toSql db (tableNameOf name) (normalizeDf ⟨fields, rows⟩ y)
      = Except.ok db') :
    tryProcessFile y db ⟨name, FileData.ok fields rows⟩ = (db', []) := by
  simp [tryProcessFile, processFileBody, he, hts, Except.map]

theorem tryProcessFile_writeError {fields : List String} {rows : List (List Int)}
    {y : Int} {db : Database} {name : String} {e : String}
    (he : dfEmpty ⟨fields, rows⟩ = false)
    (hts : toSql db (tableNameOf name) (normalizeDf ⟨fields, rows⟩ y)
      = Except.error e) :
    tryProcessFile y db ⟨name, FileData.ok fields rows⟩
      = (db, [Msg.errorFile name y]) := by
  simp [tryProcessFile, processFileBody, he, hts, Except.map]

/-- A failing per-file body is caught: the store is untouched and the error
is reported with the offending file name and year. -/
theorem tryProcessFile_of_error {year : Int} {db : Database} {f : FileEntry}
    {e : String} (h : processFileBody year db f = Except.error e) :
    tryProcessFile year db f = (db, [Msg.errorFile f.filename year]) := by
  unfold tryProcessFile
  rw [h]

/-- One step of the file loop only ever extends a table that is already
present, keeping its column list. -/
theorem tryProcessFile_extends {year : Int} {db : Database} {f : FileEntry}
    {t : String} {old : DataFrame} (h : dbFind db t = some old) :
    ∃ ext, dbFind (tryProcessFile year db f).1 t
      = some ⟨old.cols, old.rows ++ ext⟩ := by
  obtain ⟨name, data⟩ := f
  cases data with
  | corrupt => exact ⟨[], by simp [tryProcessFile_corrupt, h]⟩
  | ok fields rows =>
      cases he : dfEmpty ⟨fields, rows⟩ with
      | true => exact ⟨[], by simp [tryProcessFile_empty _ _ _ he, h]⟩
      | false =>
          cases hts : toSql db (tableNameOf name)
              (normalizeDf ⟨fields, rows⟩ year) with
          | error e =>
              exact ⟨[], by simp [tryProcessFile_writeError he hts, h]⟩
          | ok db' =>
              rw [tryProcessFile_write he hts]
              obtain ⟨hother, _, hsome⟩ := dbFind_after_toSql hts
              by_cases ht : t = tableNameOf name
              · subst ht
                exact ⟨(normalizeDf ⟨fields, rows⟩ year).rows, hsome old h⟩
              · exact ⟨[], by simp [hother t ht, h]⟩

/-! ### The flattened run trace -/

theorem runPairs_append (db : Database) (a b : List (Int × FileEntry)) :
    runPairs db (a ++ b) = runPairs (runPairs db a) b := by
  induction a generalizing db with
  | nil => rfl
  | cons p rest ih =>
      obtain ⟨y, f⟩ := p
      simp [runPairs, ih]

/-- Tables never shrink and never change schema: any table present in the
store keeps its column list and its rows (as an initial segment) across the
rest of the run. -/
theorem runPairs_extends (trace : List (Int × FileEntry)) :
    ∀ {db : Database} {t : String} {old : DataFrame},
      dbFind db t = some old →
      ∃ ext, dbFind (runPairs db trace) t = some ⟨old.cols, old.rows ++ ext⟩ := by
  induction trace with
  | nil => exact fun h => ⟨[], by simp [runPairs, h]⟩
  | cons p rest ih =>
      obtain ⟨y, f⟩ := p
      intro db t old h
      obtain ⟨ext1, h1⟩ := @tryProcessFile_extends y _ f _ _ h
      obtain ⟨ext2, h2⟩ := ih h1
      exact ⟨ext1 ++ ext2, by simpa [runPairs, List.append_assoc] using h2⟩

theorem colsAt_runPairs {db : Database} {t : String} {old : DataFrame}
    (trace : List (Int × FileEntry)) (h : dbFind db t = some old) :
    colsAt (runPairs db trace) t = some old.cols := by
  obtain ⟨ext, h2⟩ := runPairs_extends trace h
  simp [colsAt, h2]

theorem colsAt_some {db : Database} {t : String} {df : DataFrame}
    (h : dbFind db t = some df) : colsAt db t = some df.cols := by
  simp [colsAt, h]

theorem colsAt_dbReplace_ne {n s : String} (db : Database) (d : DataFrame)
    (hs : s ≠ n) : colsAt (dbReplace db n d) s = colsAt db s := by
  unfold colsAt
  rw [dbFind_dbReplace_ne db _ hs]

theorem rowCount_dbReplace_ne {n s : String} (db : Database) (d : DataFrame)
    (hs : s ≠ n) : rowCount (dbReplace db n d) s = rowCount db s := by
  unfold rowCount
  rw [dbFind_dbReplace_ne db _ hs]

theorem colsAt_append_single_ne {db : Database} {n s : String}
    (d : DataFrame) (hs : s ≠ n) : colsAt (db ++ [(n, d)]) s = colsAt db s := by
  unfold colsAt
  rw [dbFind_append_single_ne _ hs]

theorem rowCount_append_single_ne {db : Database} {n s : String}
    (d : DataFrame) (hs : s ≠ n) : rowCount (db ++ [(n, d)]) s = rowCount db s := by
  unfold rowCount
  rw [dbFind_append_single_ne _ hs]

/-- The nested per-year/per-file loops evolve the store exactly as the fold
over the flattened trace does. -/
theorem runFiles_fst_eq_runPairs (year : Int) (db : Database)
    (files : List FileEntry) :
    (runFiles year db files).1 = runPairs db (files.map (fun f => (year, f))) := by
  induction files generalizing db with
  | nil => rfl
  | cons f fs ih => simp [runFiles, runPairs, ih]

theorem runLoader_fst_eq_runPairs (fs : FS) (years : List Int) (db : Database) :
    (runLoader fs years db).1 = runPairs db (traceOf fs years) := by
  induction years generalizing db with
  | nil => rfl
  | cons y ys ih =>
      rw [runLoader]
      simp only [traceOf, List.flatMap_cons]
      rw [runPairs_append]
      cases hf : fsFind fs y with
      | none =>
          simp only [processYear, hf]
          exact ih db
      | some entries =>
          by_cases he : (entries.filter isDbf).isEmpty
          · have hnil : entries.filter isDbf = [] := List.isEmpty_iff.mp he
            simp only [processYear, hf, he, if_pos, hnil, List.map_nil]
            exact ih db
          · simp only [processYear, hf, he, if_neg, Bool.not_eq_true]
            rw [runFiles_fst_eq_runPairs]
            exact ih _

/-! ### The replay argument

Once a table exists its column list never changes (`runPairs_extends`), so
whether a given file's write succeeds is decided by the final store's
schema for its destination table.  Re-running the whole trace against a
store whose per-table schemas agree with the first run's final store
therefore reproduces every per-file outcome, and every table grows by
exactly the rows the first run appended. -/
theorem runPairs_replay (trace : List (Int × FileEntry)) :
    ∀ dbA dbB, (∀ s, colsAt dbB s = colsAt (runPairs dbA trace) s) →
      (∀ s, colsAt (runPairs dbB trace) s = colsAt (runPairs dbA trace) s) ∧
      (∀ s, rowCount (runPairs dbB trace) s + rowCount dbA s
          = rowCount dbB s + rowCount (runPairs dbA trace) s) := by
  induction trace with
  | nil => exact fun dbA dbB hB => ⟨hB, fun s => rfl⟩
  | cons p rest ih =>
      obtain ⟨y, f⟩ := p
      obtain ⟨name, data⟩ := f
      intro dbA dbB hB
      have glue : ∀ (dbA' dbB' : Database) (lA lB : List Msg),
          tryProcessFile y dbA ⟨name, data⟩ = (dbA', lA) →
          tryProcessFile y dbB ⟨name, data⟩ = (dbB', lB) →
          (∀ s, colsAt dbB' s = colsAt (runPairs dbA' rest) s) →
          (∀ s, rowCount dbA' s + rowCount dbB s
              = rowCount dbB' s + rowCount dbA s) →
          (∀ s, colsAt (runPairs dbB ((y, ⟨name, data⟩) :: rest)) s
              = colsAt (runPairs dbA ((y, ⟨name, data⟩) :: rest)) s) ∧
          (∀ s, rowCount (runPairs dbB ((y, ⟨name, data⟩) :: rest)) s
                + rowCount dbA s
              = rowCount dbB s
                + rowCount (runPairs dbA ((y, ⟨name, data⟩) :: rest)) s) := by
        intro dbA' dbB' lA lB hA hB' hcols hdelta
        have eA : runPairs dbA ((y, ⟨name, data⟩) :: rest)
            = runPairs dbA' rest := by rw [runPairs, hA]
        have eB : runPairs dbB ((y, ⟨name, data⟩) :: rest)
            = runPairs dbB' rest := by rw [runPairs, hB']
        obtain ⟨ih1, ih2⟩ := ih dbA' dbB' hcols
        rw [eA, eB]
        refine ⟨ih1, fun s => ?_⟩
        have h1 := ih2 s
        have h2 := hdelta s
        omega
      cases data with
      | corrupt =>
          refine glue dbA dbB _ _ (tryProcessFile_corrupt y dbA name)
            (tryProcessFile_corrupt y dbB name) ?_ (fun s => Nat.add_comm _ _)
          intro s
          have := hB s
          rwa [runPairs, tryProcessFile_corrupt] at this
      | ok fields rows =>
          cases he : dfEmpty ⟨fields, rows⟩ with
          | true =>
              refine glue dbA dbB _ _ (tryProcessFile_empty y dbA name he)
                (tryProcessFile_empty y dbB name he) ?_
                (fun s => Nat.add_comm _ _)
              intro s
              have := hB s
              rwa [runPairs, tryProcessFile_empty y dbA name he] at this
          | false =>
              by_cases hnd : (normalizeDf ⟨fields, rows⟩ y).cols.Nodup
              · cases hAfind : dbFind dbA (tableNameOf name) with
                | none =>
                    -- first run creates the table; its schema is the final
                    -- schema, so the second run appends to it.
                    have htsA := @toSql_of_none _ _ (normalizeDf ⟨fields, rows⟩ y)
                      hnd hAfind
                    have hAe := tryProcessFile_write he htsA
                    have hfindA' : dbFind
                        (dbA ++ [(tableNameOf name, normalizeDf ⟨fields, rows⟩ y)])
                        (tableNameOf name) = some (normalizeDf ⟨fields, rows⟩ y) := by
                      rw [dbFind_append_of_none _ hAfind]
                      simp [dbFind]
                    have hBrw : ∀ s, colsAt dbB s
                        = colsAt (runPairs
                            (dbA ++ [(tableNameOf name, normalizeDf ⟨fields, rows⟩ y)])
                            rest) s := by
                      intro s
                      have := hB s
                      rwa [runPairs, hAe] at this
                    have hBn := hBrw (tableNameOf name)
                    rw [colsAt_runPairs rest hfindA'] at hBn
                    obtain ⟨b, hbfind, hbcols⟩ := colsAt_eq_some hBn
                    have htsB : toSql dbB (tableNameOf name)
                        (normalizeDf ⟨fields, rows⟩ y)
                        = Except.ok (dbReplace dbB (tableNameOf name)
                            ⟨b.cols, b.rows ++ (normalizeDf ⟨fields, rows⟩ y).rows⟩) := by
                      rw [toSql_of_some hnd hbfind, if_pos hbcols]
                    have hBe := tryProcessFile_write he htsB
                    refine glue _ _ _ _ hAe hBe ?_ ?_
                    · intro s
                      by_cases hs : s = tableNameOf name
                      · subst hs
                        rw [colsAt_runPairs rest hfindA',
                          colsAt_some (dbFind_dbReplace_self _ hbfind)]
                        exact congrArg some hbcols
                      · rw [colsAt_dbReplace_ne dbB _ hs, hBrw s]
                    · intro s
                      by_cases hs : s = tableNameOf name
                      · subst hs
                        rw [rowCount_some hfindA', rowCount_none hAfind,
                          rowCount_some hbfind, rowCount_some
                            (dbFind_dbReplace_self _ hbfind)]
                        simp only [List.length_append]
                        omega
                      · rw [rowCount_append_single_ne _ hs,
                          rowCount_dbReplace_ne dbB _ hs]
                        omega
                | some a =>
                    by_cases hc : a.cols = (normalizeDf ⟨fields, rows⟩ y).cols
                    · -- both runs append
                      have htsA : toSql dbA (tableNameOf name)
                          (normalizeDf ⟨fields, rows⟩ y)
                          = Except.ok (dbReplace dbA (tableNameOf name)
                              ⟨a.cols, a.rows ++ (normalizeDf ⟨fields, rows⟩ y).rows⟩) := by
                        rw [toSql_of_some hnd hAfind, if_pos hc]
                      have hAe := tryProcessFile_write he htsA
                      have hfindA' := dbFind_dbReplace_self
                        ⟨a.cols, a.rows ++ (normalizeDf ⟨fields, rows⟩ y).rows⟩ hAfind
                      have hBrw : ∀ s, colsAt dbB s
                          = colsAt (runPairs (dbReplace dbA (tableNameOf name)
                              ⟨a.cols, a.rows ++ (normalizeDf ⟨fields, rows⟩ y).rows⟩)
                              rest) s := by
                        intro s
                        have := hB s
                        rwa [runPairs, hAe] at this
                      have hBn := hBrw (tableNameOf name)
                      rw [colsAt_runPairs rest hfindA'] at hBn
                      obtain ⟨b, hbfind, hbcols⟩ := colsAt_eq_some hBn
                      have htsB : toSql dbB (tableNameOf name)
                          (normalizeDf ⟨fields, rows⟩ y)
                          = Except.ok (dbReplace dbB (tableNameOf name)
                              ⟨b.cols, b.rows ++ (normalizeDf ⟨fields, rows⟩ y).rows⟩) := by
                        rw [toSql_of_some hnd hbfind, if_pos (by rw [hbcols]; exact hc)]
                      have hBe := tryProcessFile_write he htsB
                      refine glue _ _ _ _ hAe hBe ?_ ?_
                      · intro s
                        by_cases hs : s = tableNameOf name
                        · subst hs
                          rw [colsAt_runPairs rest hfindA',
                            colsAt_some (dbFind_dbReplace_self _ hbfind)]
                          exact congrArg some hbcols
                        · rw [colsAt_dbReplace_ne dbB _ hs, hBrw s]
                      · intro s
                        by_cases hs : s = tableNameOf name
                        · subst hs
                          rw [rowCount_some hfindA', rowCount_some hAfind,
                            rowCount_some hbfind, rowCount_some
                              (dbFind_dbReplace_self _ hbfind)]
                          simp only [List.length_append]
                          omega
                        · rw [rowCount_dbReplace_ne dbA _ hs,
                            rowCount_dbReplace_ne dbB _ hs]
                          omega
                    · -- both runs fail the schema check
                      have htsA := toSql_error_of_mismatch hnd hAfind hc
                      have hAe := tryProcessFile_writeError he htsA
                      have hBrw : ∀ s, colsAt dbB s
                          = colsAt (runPairs dbA rest) s := by
                        intro s
                        have := hB s
                        rwa [runPairs, hAe] at this
                      have hBn := hBrw (tableNameOf name)
                      rw [colsAt_runPairs rest hAfind] at hBn
                      obtain ⟨b, hbfind, hbcols⟩ := colsAt_eq_some hBn
                      have htsB := @toSql_error_of_mismatch _ _
                        (normalizeDf ⟨fields, rows⟩ y) _ hnd hbfind
                        (by rw [hbcols]; exact hc)
                      have hBe := tryProcessFile_writeError he htsB
                      exact glue _ _ _ _ hAe hBe hBrw (fun s => Nat.add_comm _ _)
              · -- duplicate labels collide with the store; the write
                -- fails identically against any store state
                have htsA := @toSql_of_dup dbA (tableNameOf name) _ hnd
                have hAe := tryProcessFile_writeError he htsA
                have hBrw : ∀ s, colsAt dbB s = colsAt (runPairs dbA rest) s := by
                  intro s
                  have := hB s
                  rwa [runPairs, hAe] at this
                have htsB := @toSql_of_dup dbB (tableNameOf name) _ hnd
                have hBe := tryProcessFile_writeError he htsB
                exact glue _ _ _ _ hAe hBe hBrw (fun s => Nat.add_comm _ _)

/-! ### Loop decomposition lemmas -/

theorem runFiles_append (year : Int) (db : Database) (a b : List FileEntry) :
    runFiles year db (a ++ b) =
      ((runFiles year (runFiles year db a).1 b).1,
       (runFiles year db a).2 ++ (runFiles year (runFiles year db a).1 b).2) := by
  induction a generalizing db with
  | nil => simp [runFiles]
  | cons f fs ih => simp [runFiles, ih, List.append_assoc]

theorem runLoader_append (fs : FS) (db : Database) (a b : List Int) :
    runLoader fs (a ++ b) db =
      ((runLoader fs b (runLoader fs a db).1).1,
       (runLoader fs a db).2 ++ (runLoader fs b (runLoader fs a db).1).2) := by
  induction a generalizing db with
  | nil => simp [runLoader]
  | cons y ys ih => simp [runLoader, ih, List.append_assoc]

/-- Inserting a file whose processing leaves the store unchanged (only
emitting diagnostics) does not alter the store produced by the rest of the
file loop, and its diagnostics appear in the year's log. -/
theorem runFiles_skip (year : Int) (db : Database) (e : FileEntry)
    (l₁ l₂ : List FileEntry) (msgs : List Msg)
    (h : tryProcessFile year (runFiles year db l₁).1 e
        = ((runFiles year db l₁).1, msgs)) :
    (runFiles year db (l₁ ++ e :: l₂)).1 = (runFiles year db (l₁ ++ l₂)).1 ∧
    ∀ m ∈ msgs, m ∈ (runFiles year db (l₁ ++ e :: l₂)).2 := by
  rw [runFiles_append year db l₁ (e :: l₂), runFiles_append year db l₁ l₂]
  simp only [runFiles, h]
  refine ⟨trivial, fun m hm => ?_⟩
  simp [hm]

/-- Inserting a year whose processing leaves the store unchanged (only
emitting diagnostics) does not alter the store produced by the rest of the
run, and its diagnostics appear in the log. -/
theorem runLoader_skip (fs : FS) (db : Database) (y : Int)
    (ys₁ ys₂ : List Int) (msgs : List Msg)
    (h : processYear fs (runLoader fs ys₁ db).1 y
        = ((runLoader fs ys₁ db).1, msgs)) :
    (runLoader fs (ys₁ ++ y :: ys₂) db).1
      = (runLoader fs (ys₁ ++ ys₂) db).1 ∧
    ∀ m ∈ msgs, m ∈ (runLoader fs (ys₁ ++ y :: ys₂) db).2 := by
  rw [runLoader_append fs db ys₁ (y :: ys₂), runLoader_append fs db ys₁ ys₂]
  simp only [runLoader, h]
  refine ⟨trivial, fun m hm => ?_⟩
  simp [hm]

/-! ### Lowercasing and normalization lemmas -/

theorem lowerStr_year : lowerStr "year" = "year" := rfl

theorem charToNat_ofNat_of_valid {n : Nat} (h : n.isValidChar) :
    (Char.ofNat n).toNat = n := by
  unfold Char.ofNat
  rw [dif_pos h]
  rfl

theorem charToLower_high (c : Char) (h : ¬(c.toNat ≥ 65 ∧ c.toNat ≤ 90)) :
    c.toLower = c := by
  unfold Char.toLower
  rw [if_neg h]

theorem charToLower_low (c : Char) (h : c.toNat ≥ 65 ∧ c.toNat ≤ 90) :
    c.toLower = Char.ofNat (c.toNat + 32) := by
  unfold Char.toLower
  rw [if_pos h]

theorem charToLower_idem (c : Char) : c.toLower.toLower = c.toLower := by
  by_cases h : c.toNat ≥ 65 ∧ c.toNat ≤ 90
  · rw [charToLower_low c h]
    have hv : (c.toNat + 32).isValidChar := Or.inl (by omega)
    apply charToLower_high
    rw [charToNat_ofNat_of_valid hv]
    omega
  · rw [charToLower_high c h, charToLower_high c h]

theorem lowerStr_idem (s : String) : lowerStr (lowerStr s) = lowerStr s := by
  unfold lowerStr
  simp only [List.map_map]
  exact congrArg String.mk (List.map_congr_left
    (fun c _ => charToLower_idem c))

/-- Unfolding of the year-tagging + lowercasing normalization when the file
already has a field named exactly `year`: every such field's values are
overwritten with the tag and no column is added. -/
theorem normalizeDf_of_mem {fields : List String} {rows : List (List Int)}
    {year : Int} (h : "year" ∈ fields) :
    normalizeDf ⟨fields, rows⟩ year
      = ⟨fields.map lowerStr,
         rows.map (fun r => (fields.zip r).map
           (fun p => if p.1 = "year" then year else p.2))⟩ := by
  simp [normalizeDf, setYearColumn, lowercaseColumns, h]

/-- Unfolding of the normalization when no field is named exactly `year`:
a `year` column is appended and all names are lowercased. -/
theorem normalizeDf_of_not_mem {fields : List String} {rows : List (List Int)}
    {year : Int} (h : "year" ∉ fields) :
    normalizeDf ⟨fields, rows⟩ year
      = ⟨fields.map lowerStr ++ ["year"], rows.map (fun r => r ++ [year])⟩ := by
  simp [normalizeDf, setYearColumn, lowercaseColumns, h, lowerStr_year]

theorem map_zip_map_eq {α β γ δ : Type} (f : α → γ) (g : α × β → δ) :
    ∀ (l : List α) (m : List β),
      (l.map f).zip ((l.zip m).map g) = (l.zip m).map (fun q => (f q.1, g q)) := by
  intro l
  induction l with
  | nil => intro m; rfl
  | cons a l ih =>
      intro m
      cases m with
      | nil => rfl
      | cons b m => simp [ih]

theorem exists_zip_pair {α β : Type} :
    ∀ (l : List α) (m : List β), m.length = l.length →
      ∀ a ∈ l, ∃ b, (a, b) ∈ l.zip m := by
  intro l
  induction l with
  | nil => simp
  | cons x l ih =>
      intro m hm a ha
      cases m with
      | nil => simp at hm
      | cons y m =>
          rcases List.mem_cons.mp ha with h1 | h1
          · exact ⟨y, by simp [h1]⟩
          · obtain ⟨b, hb⟩ := ih m (by simpa using hm) a h1
            exact ⟨b, List.mem_cons_of_mem _ hb⟩

/-- For rectangular input whose field names never lowercase to `year`
except the exact name `year` itself, every record of the normalized frame
has all field names lowercase, every `year` field equal to the Year
Identifier, and a `year` field present. -/
theorem normalizeDf_records_tagged (fields : List String)
    (rows : List (List Int)) (year : Int)
    (hwf : ∀ r ∈ rows, r.length = fields.length)
    (hy : ∀ f ∈ fields, lowerStr f = "year" → f = "year") :
    ∀ rec ∈ (normalizeDf ⟨fields, rows⟩ year).records,
      RecordTaggedLower year rec ∧ ("year", year) ∈ rec := by
  intro rec hrec
  by_cases hmem : "year" ∈ fields
  · rw [normalizeDf_of_mem hmem] at hrec
    unfold DataFrame.records at hrec
    simp only [List.map_map] at hrec
    obtain ⟨r, hr, rfl⟩ := List.mem_map.mp hrec
    simp only [Function.comp]
    rw [map_zip_map_eq]
    refine ⟨⟨fun p hp hp1 => ?_, fun p hp => ?_⟩, ?_⟩
    · obtain ⟨q, hq, rfl⟩ := List.mem_map.mp hp
      by_cases hq1 : q.1 = "year"
      · simp [hq1]
      · have hqf : q.1 ∈ fields := (List.of_mem_zip hq).1
        exact absurd (hy q.1 hqf (by simpa using hp1)) hq1
    · obtain ⟨q, hq, rfl⟩ := List.mem_map.mp hp
      exact lowerStr_idem q.1
    · obtain ⟨b, hb⟩ := exists_zip_pair fields r (hwf r hr) "year" hmem
      have he : (fun q : String × Int =>
          (lowerStr q.1, if q.1 = "year" then year else q.2)) ("year", b)
          = ("year", year) := by simp [lowerStr_year]
      exact he ▸ List.mem_map_of_mem _ hb
  · rw [normalizeDf_of_not_mem hmem] at hrec
    unfold DataFrame.records at hrec
    simp only [List.map_map] at hrec
    obtain ⟨r, hr, rfl⟩ := List.mem_map.mp hrec
    have hlen : (fields.map lowerStr).length = r.length := by
      simp [hwf r hr]
    simp only [Function.comp]
    rw [List.zip_append hlen, List.zip_map_left]
    refine ⟨⟨fun p hp hp1 => ?_, fun p hp => ?_⟩, ?_⟩
    · rcases List.mem_append.mp hp with h1 | h1
      · obtain ⟨q, hq, rfl⟩ := List.mem_map.mp h1
        have hqf : q.1 ∈ fields := (List.of_mem_zip hq).1
        have : q.1 = "year" := hy q.1 hqf (by simpa using hp1)
        exact absurd (this ▸ hqf) hmem
      · simp only [List.zip_cons_cons, List.zip_nil_right,
          List.mem_singleton] at h1
        simp [h1]
    · rcases List.mem_append.mp hp with h1 | h1
      · obtain ⟨q, hq, rfl⟩ := List.mem_map.mp h1
        exact lowerStr_idem q.1
      · simp only [List.zip_cons_cons, List.zip_nil_right,
          List.mem_singleton] at h1
        simp [h1, lowerStr_year]
    · refine List.mem_append.mpr (Or.inr ?_)
      simp

/-- If the normalized frame's column labels are distinct — which every
successful write guarantees, the store rejecting duplicate labels — then
no source field other than exactly `year` lowercases to `year`. -/
theorem nodup_normalized_hy {fields : List String} {rows : List (List Int)}
    {year : Int}
    (hnd : (normalizeDf ⟨fields, rows⟩ year).cols.Nodup) :
    ∀ f ∈ fields, lowerStr f = "year" → f = "year" := by
  by_cases hmem : "year" ∈ fields
  · rw [normalizeDf_of_mem hmem] at hnd
    intro f hf hfl
    exact List.inj_on_of_nodup_map hnd hf hmem
      (by rw [hfl, lowerStr_year])
  · rw [normalizeDf_of_not_mem hmem] at hnd
    intro f hf hfl
    obtain ⟨-, -, hdisj⟩ := List.nodup_append.mp hnd
    have hmm : "year" ∈ fields.map lowerStr :=
      hfl ▸ List.mem_map_of_mem lowerStr hf
    exact absurd (hdisj hmm (List.mem_singleton.mpr rfl)) (fun h => h)

/-! ## Claim theorems -/

/-- **C2**: every record the loader actually ingests (writes through a
successful `to_sql`) carries the Year Identifier of its source file as the
value of its `year` field, and every other field name is lowercase.  A
successful write forces the normalized column labels to be distinct (the
store rejects duplicate labels such as a lowercased `YEAR` next to the
tag), which makes the loader-assigned `year` field the unique one.  The
second and third conjuncts identify the ingested rows with the store's
contents after the write. -/
theorem claim_C2_ingested (fields : List String) (rows : List (List Int))
    (year : Int) (db : Database) (name : String) (db' : Database)
    (hwf : ∀ r ∈ rows, r.length = fields.length)
    (hts : toSql db name (normalizeDf ⟨fields, rows⟩ year) = Except.ok db') :
    (∀ rec ∈ (normalizeDf ⟨fields, rows⟩ year).records,
        RecordTaggedLower year rec ∧ ("year", year) ∈ rec) ∧
    (dbFind db name = none →
        dbFind db' name = some (normalizeDf ⟨fields, rows⟩ year)) ∧
    (∀ old, dbFind db name = some old →
        dbFind db' name
          = some ⟨old.cols, old.rows ++ (normalizeDf ⟨fields, rows⟩ year).rows⟩) := by
  obtain ⟨-, h2, h3⟩ := dbFind_after_toSql hts
  exact ⟨normalizeDf_records_tagged fields rows year hwf
    (nodup_normalized_hy (toSql_ok_nodup hts)), h2, h3⟩

theorem claim_C2_witness :
    (∀ r ∈ [[7, 1]], r.length = (["COL", "year"] : List String).length) ∧
    (toSql [] "f1_1" (normalizeDf ⟨["COL", "year"], [[7, 1]]⟩ 2018)
      = Except.ok [("f1_1", normalizeDf ⟨["COL", "year"], [[7, 1]]⟩ 2018)]) ∧
    ∀ rec ∈ (normalizeDf ⟨["COL", "year"], [[7, 1]]⟩ 2018).records,
      RecordTaggedLower 2018 rec ∧ ("year", 2018) ∈ rec :=
  ⟨by decide, rfl,
    (claim_C2_ingested ["COL", "year"] [[7, 1]] 2018 [] "f1_1"
      [("f1_1", normalizeDf ⟨["COL", "year"], [[7, 1]]⟩ 2018)]
      (by decide) rfl).1⟩

/-- **C5 (counterexample)**: the two normalization steps do not commute in
general: for a source field named `YEAR`, tagging then lowercasing yields
two `year` columns (original data kept), while lowercasing then tagging
overwrites the single lowercased column. -/
theorem claim_C5_counterexample :
    lowercaseColumns (setYearColumn ⟨["YEAR"], [[1999]]⟩ 2018)
      ≠ setYearColumn (lowercaseColumns ⟨["YEAR"], [[1999]]⟩) 2018 := by
  decide

/-- **C5 (amended)**: the year-tagging step and the column-lowercasing step
commute on every frame none of whose column names lowercases to `year`
except the exact name `year` itself. -/
theorem claim_C5_amended (df : DataFrame) (y : Int)
    (h : ∀ f ∈ df.cols, lowerStr f = "year" → f = "year") :
    lowercaseColumns (setYearColumn df y)
      = setYearColumn (lowercaseColumns df) y := by
  obtain ⟨cols, rows⟩ := df
  by_cases hmem : "year" ∈ cols
  · have hmem' : "year" ∈ cols.map lowerStr :=
      List.mem_map.mpr ⟨"year", hmem, lowerStr_year⟩
    simp only [lowercaseColumns, setYearColumn, eq_true hmem, eq_true hmem',
      if_true]
    refine congrArg (DataFrame.mk (cols.map lowerStr)) ?_
    refine List.map_congr_left (fun r _ => ?_)
    rw [List.zip_map_left, List.map_map]
    refine List.map_congr_left (fun p hp => ?_)
    obtain ⟨a, b⟩ := p
    have ha : a ∈ cols := (List.of_mem_zip hp).1
    by_cases hay : a = "year"
    · simp [hay, Function.comp, Prod.map, lowerStr_year]
    · have hla : ¬ lowerStr a = "year" := fun hl => hay (h a ha hl)
      simp [hay, hla, Function.comp, Prod.map]
  · have hmem' : "year" ∉ cols.map lowerStr := by
      intro hm
      obtain ⟨f, hf, hfl⟩ := List.mem_map.mp hm
      exact hmem ((h f hf hfl) ▸ hf)
    simp only [lowercaseColumns, setYearColumn, eq_false hmem,
      eq_false hmem', if_false, List.map_append, List.map_cons, List.map_nil,
      lowerStr_year]

/-- **C9**: collisions with the `year` tag: (a) a source field named
exactly `year` is silently overwritten with the Year Identifier and no
column is added; (b) a source field named `year` in any other letter case
keeps its original data, and the written rows carry two columns both named
`year` after lowercasing — the original data at the field's position and
the tag at another position. -/
theorem not_nodup_of_getElem?_dup {α : Type} {l : List α} {i j : Nat}
    {a : α} (hi : l[i]? = some a) (hj : l[j]? = some a) (hij : i ≠ j) :
    ¬ l.Nodup := by
  intro hnd
  obtain ⟨hi', hie⟩ := List.getElem?_eq_some.mp hi
  obtain ⟨hj', hje⟩ := List.getElem?_eq_some.mp hj
  exact hij (hnd.getElem_inj_iff.mp (hie.trans hje.symm))

/-- **C9 (counterexample)**: written rows never carry two columns named
`year`: for a file whose only field is `YEAR`, the normalized frame's
duplicate `year` labels make the write raise, the error is caught per
file, and nothing at all is written — the destination table is not even
created, refuting the claim that such rows are written with two `year`
columns. -/
theorem claim_C9_counterexample :
    tryProcessFile 2018 [] ⟨"f1_1.dbf", FileData.ok ["YEAR"] [[1999]]⟩
      = ([], [Msg.errorFile "f1_1.dbf" 2018]) ∧
    dbFind (tryProcessFile 2018 []
        ⟨"f1_1.dbf", FileData.ok ["YEAR"] [[1999]]⟩).1 "f1_1" = none := by
  decide

/-- **C9 (amended)**: collisions with the `year` tag: (a) a source field
named exactly `year` is silently overwritten with the Year Identifier in
the frame before writing, and no column is added; (b) a source field named
`year` in any other letter case keeps its original data and lowercases to
`year`, so the in-memory frame carries two columns both named `year` —
the original data at the field's position and the tag at another — but
the store cannot represent such rows: the write of that frame raises
`duplicate column name`, the per-file handler catches it, and the file's
rows are never ingested. -/
theorem claim_C9_year_collision (fields : List String)
    (rows : List (List Int)) (year : Int)
    (hwf : ∀ r ∈ rows, r.length = fields.length) :
    ("year" ∈ fields →
      (normalizeDf ⟨fields, rows⟩ year).cols = fields.map lowerStr ∧
      ∀ r ∈ rows, ∀ i : Nat, fields[i]? = some "year" →
        ∃ rec ∈ (normalizeDf ⟨fields, rows⟩ year).records,
          rec[i]? = some ("year", year)) ∧
    (∀ (i : Nat) (c : String), fields[i]? = some c → lowerStr c = "year" →
      c ≠ "year" →
      (normalizeDf ⟨fields, rows⟩ year).cols[i]? = some "year" ∧
      (∃ j, j ≠ i ∧ (normalizeDf ⟨fields, rows⟩ year).cols[j]? = some "year") ∧
      (∀ r ∈ rows, ∀ v : Int, r[i]? = some v →
        ∃ rec ∈ (normalizeDf ⟨fields, rows⟩ year).records,
          rec[i]? = some ("year", v) ∧
          ∃ j, j ≠ i ∧ rec[j]? = some ("year", year)) ∧
      (∀ (db : Database) (tname : String),
        toSql db tname (normalizeDf ⟨fields, rows⟩ year)
          = Except.error ("duplicate column name on table " ++ tname)) ∧
      (rows ≠ [] → ∀ (db : Database) (fname : String),
        tryProcessFile year db ⟨fname, FileData.ok fields rows⟩
          = (db, [Msg.errorFile fname year]))) := by
  constructor
  · intro hmem
    rw [normalizeDf_of_mem hmem]
    refine ⟨rfl, fun r hr i hi => ?_⟩
    unfold DataFrame.records
    simp only [List.map_map]
    refine ⟨_, List.mem_map_of_mem _ hr, ?_⟩
    have hir : i < r.length := by
      rw [hwf r hr]
      exact (List.getElem?_eq_some.mp hi).1
    simp only [Function.comp]
    have hz : (fields.zip r)[i]? = some ("year", r[i]) :=
      List.getElem?_zip_eq_some.mpr ⟨hi, List.getElem?_eq_getElem hir⟩
    rw [map_zip_map_eq, List.getElem?_map, hz]
    simp [lowerStr_year]
  · intro i c hi hlc hc
    have hif : i < fields.length := (List.getElem?_eq_some.mp hi).1
    have hfne : fields ≠ [] := by
      intro hfe
      rw [hfe] at hif
      simp at hif
    by_cases hmem : "year" ∈ fields
    · rw [normalizeDf_of_mem hmem]
      obtain ⟨j, hj⟩ := List.mem_iff_getElem?.mp hmem
      have hji : j ≠ i := fun hji => by
        rw [hji, hi] at hj
        exact hc (Option.some.inj hj)
      have hci : (fields.map lowerStr)[i]? = some "year" := by
        rw [List.getElem?_map, hi]
        simp [hlc]
      have hcj : (fields.map lowerStr)[j]? = some "year" := by
        rw [List.getElem?_map, hj]
        simp [lowerStr_year]
      have hnd : ¬ (fields.map lowerStr).Nodup :=
        not_nodup_of_getElem?_dup hci hcj (fun hij => hji hij.symm)
      refine ⟨hci, ⟨j, hji, hcj⟩, fun r hr v hv => ?_,
        fun db tname => toSql_of_dup hnd, fun hrne db fname => ?_⟩
      · unfold DataFrame.records
        simp only [List.map_map]
        refine ⟨_, List.mem_map_of_mem _ hr, ?_, j, hji, ?_⟩
        · simp only [Function.comp]
          have hz : (fields.zip r)[i]? = some (c, v) :=
            List.getElem?_zip_eq_some.mpr ⟨hi, hv⟩
          rw [map_zip_map_eq, List.getElem?_map, hz]
          simp [hlc, hc]
        · have hjr : j < r.length := by
            rw [hwf r hr]
            exact (List.getElem?_eq_some.mp hj).1
          simp only [Function.comp]
          have hz : (fields.zip r)[j]? = some ("year", r[j]) :=
            List.getElem?_zip_eq_some.mpr ⟨hj, List.getElem?_eq_getElem hjr⟩
          rw [map_zip_map_eq, List.getElem?_map, hz]
          simp [lowerStr_year]
      · obtain ⟨r0, rs, rfl⟩ := List.exists_cons_of_ne_nil hrne
        obtain ⟨f0, fs, rfl⟩ := List.exists_cons_of_ne_nil hfne
        have hts : toSql db (tableNameOf fname)
            (normalizeDf ⟨f0 :: fs, r0 :: rs⟩ year)
            = Except.error
                ("duplicate column name on table " ++ tableNameOf fname) := by
          rw [normalizeDf_of_mem hmem]
          exact toSql_of_dup hnd
        exact tryProcessFile_writeError rfl hts
    · rw [normalizeDf_of_not_mem hmem]
      have hmaplen : (fields.map lowerStr).length = fields.length :=
        List.length_map _ _
      have hci : (fields.map lowerStr ++ ["year"])[i]? = some "year" := by
        rw [List.getElem?_append_left (by rw [hmaplen]; exact hif),
          List.getElem?_map, hi]
        simp [hlc]
      have hcj : (fields.map lowerStr ++ ["year"])[fields.length]?
          = some "year" := by
        rw [← hmaplen, List.getElem?_concat_length]
      have hnd : ¬ (fields.map lowerStr ++ ["year"]).Nodup :=
        not_nodup_of_getElem?_dup hci hcj (by omega)
      refine ⟨hci, ⟨fields.length, fun hji => by omega, hcj⟩,
        fun r hr v hv => ?_, fun db tname => toSql_of_dup hnd,
        fun hrne db fname => ?_⟩
      · unfold DataFrame.records
        simp only [List.map_map]
        have hir : i < r.length := by
          rw [hwf r hr]
          exact hif
        refine ⟨_, List.mem_map_of_mem _ hr, ?_, fields.length,
          fun hji => by omega, ?_⟩
        · simp only [Function.comp]
          refine List.getElem?_zip_eq_some.mpr ⟨?_, ?_⟩
          · exact hci
          · rw [List.getElem?_append_left hir]
            exact hv
        · simp only [Function.comp]
          refine List.getElem?_zip_eq_some.mpr ⟨?_, ?_⟩
          · exact hcj
          · rw [← hwf r hr, List.getElem?_concat_length]
      · obtain ⟨r0, rs, rfl⟩ := List.exists_cons_of_ne_nil hrne
        obtain ⟨f0, fs, rfl⟩ := List.exists_cons_of_ne_nil hfne
        have hts : toSql db (tableNameOf fname)
            (normalizeDf ⟨f0 :: fs, r0 :: rs⟩ year)
            = Except.error
                ("duplicate column name on table " ++ tableNameOf fname) := by
          rw [normalizeDf_of_not_mem hmem]
          exact toSql_of_dup hnd
        exact tryProcessFile_writeError rfl hts

theorem claim_C9_witness :
    (∃ rec ∈ (normalizeDf ⟨["year", "YEAR"], [[7, 1]]⟩ 2018).records,
      rec[0]? = some ("year", 2018)) ∧
    (∃ rec ∈ (normalizeDf ⟨["year", "YEAR"], [[7, 1]]⟩ 2018).records,
      rec[1]? = some ("year", 1) ∧
      ∃ j, j ≠ 1 ∧ rec[j]? = some ("year", 2018)) ∧
    tryProcessFile 2018 [] ⟨"f1_1.dbf", FileData.ok ["year", "YEAR"] [[7, 1]]⟩
      = ([], [Msg.errorFile "f1_1.dbf" 2018]) := by
  have h := claim_C9_year_collision ["year", "YEAR"] [[7, 1]] 2018 (by decide)
  have hb := h.2 1 "YEAR" (by decide) (by decide) (by decide)
  exact ⟨(h.1 (by decide)).2 [7, 1] (by decide) 0 (by decide),
    hb.2.2.1 [7, 1] (by decide) 1 (by decide),
    hb.2.2.2.2 (by decide) [] "f1_1.dbf"⟩

theorem claim_C5_witness :
    (∀ f ∈ (["COL", "year"] : List String), lowerStr f = "year" → f = "year") ∧
    lowercaseColumns (setYearColumn ⟨["COL", "year"], [[7, 1]]⟩ 2018)
      = setYearColumn (lowercaseColumns ⟨["COL", "year"], [[7, 1]]⟩) 2018 :=
  ⟨by decide, claim_C5_amended ⟨["COL", "year"], [[7, 1]]⟩ 2018 (by decide)⟩

/-- **C1**: any exception raised while processing a single legacy file
(read failure, malformed structure, append failure, etc.) is caught at
file granularity: the store is left as it was, the error is reported with
the offending file name and year, and the remaining files of the year and
all subsequent years are processed exactly as if the failing file were
absent. -/
theorem claim_C1_per_file_isolation (year : Int) (db : Database)
    (f : FileEntry) (e : String) (l₁ l₂ : List FileEntry)
    (h : processFileBody year (runFiles year db l₁).1 f = Except.error e) :
    tryProcessFile year (runFiles year db l₁).1 f
      = ((runFiles year db l₁).1, [Msg.errorFile f.filename year]) ∧
    (runFiles year db (l₁ ++ f :: l₂)).1 = (runFiles year db (l₁ ++ l₂)).1 ∧
    Msg.errorFile f.filename year
      ∈ (runFiles year db (l₁ ++ f :: l₂)).2 ∧
    ∀ fs ys, (runLoader fs ys (runFiles year db (l₁ ++ f :: l₂)).1).1
      = (runLoader fs ys (runFiles year db (l₁ ++ l₂)).1).1 := by
  have h1 := tryProcessFile_of_error h
  obtain ⟨h2, h3⟩ := runFiles_skip year db f l₁ l₂ _ h1
  exact ⟨h1, h2, h3 _ (by simp), fun fs ys => by rw [h2]⟩

theorem claim_C1_witness :
    processFileBody 2018 (runFiles 2018 [] []).1 ⟨"bad.dbf", FileData.corrupt⟩
      = Except.error "read failure: bad.dbf" ∧
    Msg.errorFile "bad.dbf" 2018
      ∈ (runFiles 2018 []
          ([] ++ ⟨"bad.dbf", FileData.corrupt⟩ :: [⟨"f1_1.dbf", FileData.ok ["a"] [[1]]⟩])).2 :=
  ⟨rfl, (claim_C1_per_file_isolation 2018 [] ⟨"bad.dbf", FileData.corrupt⟩
    "read failure: bad.dbf" [] [⟨"f1_1.dbf", FileData.ok ["a"] [[1]]⟩] rfl).2.2.1⟩

/-- On a writable store the store-level per-file step mirrors the
`Database`-level one. -/
theorem storeTryProcessFile_writable (y : Int) (db : Database) (f : FileEntry) :
    storeTryProcessFile y (Store.writable db) f
      = (Store.writable (tryProcessFile y db f).1,
         (tryProcessFile y db f).2) := by
  obtain ⟨name, data⟩ := f
  cases data with
  | corrupt => rfl
  | ok fields rows =>
      cases he : dfEmpty ⟨fields, rows⟩ with
      | true =>
          simp [storeTryProcessFile, storeProcessFileBody, tryProcessFile,
            processFileBody, he]
      | false =>
          cases hts : toSql db (tableNameOf name)
              (normalizeDf ⟨fields, rows⟩ y) with
          | error e =>
              simp [storeTryProcessFile, storeProcessFileBody, storeToSql,
                tryProcessFile, processFileBody, he, hts, Except.map]
          | ok db' =>
              simp [storeTryProcessFile, storeProcessFileBody, storeToSql,
                tryProcessFile, processFileBody, he, hts, Except.map]

theorem storeRunFiles_writable (y : Int) (db : Database)
    (files : List FileEntry) :
    storeRunFiles y (Store.writable db) files
      = (Store.writable (runFiles y db files).1, (runFiles y db files).2) := by
  induction files generalizing db with
  | nil => rfl
  | cons f fs ih =>
      simp [storeRunFiles, runFiles, storeTryProcessFile_writable, ih]

theorem storeProcessYear_writable (fs : FS) (db : Database) (y : Int) :
    storeProcessYear fs (Store.writable db) y
      = (Store.writable (processYear fs db y).1, (processYear fs db y).2) := by
  unfold storeProcessYear processYear
  cases hf : fsFind fs y with
  | none => rfl
  | some entries =>
      by_cases he : (entries.filter isDbf).isEmpty
      · simp [he]
      · simp [he, storeRunFiles_writable]

theorem storeRunLoader_writable (fs : FS) (years : List Int) (db : Database) :
    storeRunLoader fs years (Store.writable db)
      = (Store.writable (runLoader fs years db).1,
         (runLoader fs years db).2) := by
  induction years generalizing db with
  | nil => rfl
  | cons y ys ih =>
      simp [storeRunLoader, runLoader, storeProcessYear_writable, ih]

/-- The unwritable state is absorbing: no per-file step leaves it. -/
theorem storeTryProcessFile_unwritable_fst (y : Int) (f : FileEntry) :
    (storeTryProcessFile y Store.unwritable f).1 = Store.unwritable := by
  obtain ⟨name, data⟩ := f
  cases data with
  | corrupt => rfl
  | ok fields rows =>
      cases he : dfEmpty ⟨fields, rows⟩ with
      | true => simp [storeTryProcessFile, storeProcessFileBody, he]
      | false =>
          simp [storeTryProcessFile, storeProcessFileBody, storeToSql, he,
            Except.map]

theorem storeRunFiles_unwritable_fst (y : Int) (files : List FileEntry) :
    (storeRunFiles y Store.unwritable files).1 = Store.unwritable := by
  induction files with
  | nil => rfl
  | cons f fs ih =>
      simp [storeRunFiles, storeTryProcessFile_unwritable_fst, ih]

theorem storeProcessYear_unwritable_fst (fs : FS) (y : Int) :
    (storeProcessYear fs Store.unwritable y).1 = Store.unwritable := by
  unfold storeProcessYear
  cases hf : fsFind fs y with
  | none => rfl
  | some entries =>
      by_cases he : (entries.filter isDbf).isEmpty
      · simp [he]
      · simp [he, storeRunFiles_unwritable_fst]

theorem storeRunLoader_unwritable_fst (fs : FS) (years : List Int) :
    (storeRunLoader fs years Store.unwritable).1 = Store.unwritable := by
  induction years with
  | nil => rfl
  | cons y ys ih => simp [storeRunLoader, storeProcessYear_unwritable_fst, ih]

/-- **C3 (counterexample)**: an unwritable destination store does not abort
the run.  On a two-year filesystem with one file per year, the run over an
unwritable store completes, attempts and reports both files — the failure
is handled precisely by skipping units of work, and the second year is
still processed after the first year's failure. -/
theorem claim_C3_counterexample :
    storeRunLoader
      [(2018, [⟨"a.dbf", FileData.ok ["x"] [[1]]⟩]),
       (2019, [⟨"b.dbf", FileData.ok ["x"] [[1]]⟩])]
      [2018, 2019] Store.unwritable
      = (Store.unwritable,
         [Msg.errorFile "a.dbf" 2018, Msg.errorFile "b.dbf" 2019]) := by
  decide

/-- **C3 (amended)**: the destination store is opened lazily
(`create_engine` at line 21 never touches the file), so an unwritable
store is not fatal: each non-empty file's write raises inside the per-file
`try/except` and is reported with its filename and year, the store stays
unwritable and ingests nothing, and the run always completes — with a
writable store the run equals the `Database`-level loader and likewise
never aborts. -/
theorem claim_C3_lazy_store (fs : FS) (years : List Int) :
    (∀ (y : Int) (name : String) (fields : List String)
        (rows : List (List Int)),
        dfEmpty ⟨fields, rows⟩ = false →
        storeTryProcessFile y Store.unwritable ⟨name, FileData.ok fields rows⟩
          = (Store.unwritable, [Msg.errorFile name y])) ∧
    (storeRunLoader fs years Store.unwritable).1 = Store.unwritable ∧
    (∀ db, storeRunLoader fs years (Store.writable db)
        = (Store.writable (runLoader fs years db).1,
           (runLoader fs years db).2)) := by
  refine ⟨fun y name fields rows he => ?_,
    storeRunLoader_unwritable_fst fs years,
    fun db => storeRunLoader_writable fs years db⟩
  simp [storeTryProcessFile, storeProcessFileBody, storeToSql, he, Except.map]

theorem claim_C3_witness :
    dfEmpty ⟨["x"], [[1]]⟩ = false ∧
    storeTryProcessFile 2018 Store.unwritable ⟨"a.dbf", FileData.ok ["x"] [[1]]⟩
      = (Store.unwritable, [Msg.errorFile "a.dbf" 2018]) :=
  ⟨rfl, (claim_C3_lazy_store [] []).1 2018 "a.dbf" ["x"] [[1]] rfl⟩

/-- **C4**: running the loader twice over the same year set with unchanged
source files, starting from a fresh store, doubles the row count of every
destination table — there is no deduplication or upsert on re-run. -/
theorem claim_C4_rerun_doubles (fs : FS) (years : List Int) (t : String) :
    rowCount (runLoader fs years (runLoader fs years []).1).1 t
      = 2 * rowCount (runLoader fs years []).1 t := by
  rw [runLoader_fst_eq_runPairs fs years []]
  rw [runLoader_fst_eq_runPairs fs years (runPairs [] (traceOf fs years))]
  obtain ⟨-, h2⟩ := runPairs_replay (traceOf fs years) []
    (runPairs [] (traceOf fs years)) (fun s => rfl)
  have h3 := h2 t
  have h0 : rowCount ([] : Database) t = 0 := rfl
  omega

/-- **C6**: a year whose source archive directory does not exist yields a
warning, contributes zero rows (the store after the run equals the store of
the run without that year), and does not raise. -/
theorem claim_C6_missing_dir (fs : FS) (db : Database) (y : Int)
    (ys₁ ys₂ : List Int) (h : fsFind fs y = none) :
    processYear fs db y = (db, [Msg.warnMissingDir y]) ∧
    (runLoader fs (ys₁ ++ y :: ys₂) db).1
      = (runLoader fs (ys₁ ++ ys₂) db).1 ∧
    Msg.warnMissingDir y ∈ (runLoader fs (ys₁ ++ y :: ys₂) db).2 := by
  have h1 : ∀ d : Database, processYear fs d y = (d, [Msg.warnMissingDir y]) := by
    intro d
    simp [processYear, h]
  obtain ⟨h2, h3⟩ := runLoader_skip fs db y ys₁ ys₂ _ (h1 _)
  exact ⟨h1 db, h2, h3 _ (by simp)⟩

theorem claim_C6_witness :
    fsFind ([(2019, [⟨"f1_1.dbf", FileData.ok ["a"] [[1]]⟩])]) 2018 = none ∧
    Msg.warnMissingDir 2018
      ∈ (runLoader [(2019, [⟨"f1_1.dbf", FileData.ok ["a"] [[1]]⟩])]
          ([2019] ++ 2018 :: [2019]) []).2 :=
  ⟨rfl, (claim_C6_missing_dir
    [(2019, [⟨"f1_1.dbf", FileData.ok ["a"] [[1]]⟩])] [] 2018 [2019] [2019]
    rfl).2.2⟩

/-- **C7**: a legacy file that yields zero records produces a diagnostic,
no write, and no mutation of any destination table, and sibling files of
the same year are processed exactly as if it were absent. -/
theorem claim_C7_empty_file (year : Int) (db : Database) (name : String)
    (fields : List String) (l₁ l₂ : List FileEntry) :
    tryProcessFile year db ⟨name, FileData.ok fields []⟩
      = (db, [Msg.infoEmpty name]) ∧
    (runFiles year db (l₁ ++ ⟨name, FileData.ok fields []⟩ :: l₂)).1
      = (runFiles year db (l₁ ++ l₂)).1 ∧
    Msg.infoEmpty name
      ∈ (runFiles year db (l₁ ++ ⟨name, FileData.ok fields []⟩ :: l₂)).2 := by
  have he : dfEmpty ⟨fields, ([] : List (List Int))⟩ = true := by
    simp [dfEmpty]
  obtain ⟨h2, h3⟩ := runFiles_skip year db ⟨name, FileData.ok fields []⟩ l₁ l₂ _
    (tryProcessFile_empty year _ name he)
  exact ⟨tryProcessFile_empty year db name he, h2, h3 _ (by simp)⟩

/-- **C8**: a write never drops or truncates: `to_sql` creates the table
when absent and otherwise appends, so rows present before any single write
— and before any whole run — are still present afterwards, with the same
column list. -/
theorem claim_C8_no_truncate (db : Database) (t : String) (df : DataFrame)
    (h : dbFind db t = some df) :
    (∀ d n, d.cols.Nodup → dbFind db n = none →
        toSql db n d = Except.ok (db ++ [(n, d)])) ∧
    (∀ d db', toSql db t d = Except.ok db' →
        dbFind db' t = some ⟨df.cols, df.rows ++ d.rows⟩) ∧
    (∀ fs years, ∃ ext,
        dbFind (runLoader fs years db).1 t = some ⟨df.cols, df.rows ++ ext⟩) := by
  refine ⟨fun d n hnd hn => toSql_of_none hnd hn, fun d db' hts => ?_,
    fun fs years => ?_⟩
  · exact (dbFind_after_toSql hts).2.2 df h
  · rw [runLoader_fst_eq_runPairs]
    exact runPairs_extends _ h

/-- **C10**: every row returned by the ROE query has positive
`total_equity` and `return_on_equity_pct = (net_income / total_equity) * 100`;
the result is exactly the positive-equity input rows with that projection,
so rows with non-positive equity are assigned NULL and filtered out, and
the division only ever reaches the output under the positivity guard. -/
theorem claim_C10_roe_guard (rows : List LaggedEquityRow) :
    (∀ o ∈ roeFinalSelect rows,
        0 < o.total_equity ∧
        o.return_on_equity_pct
          = some (o.net_income / o.total_equity * 100)) ∧
    roeFinalSelect rows
      = (rows.filter (fun r => decide (0 < r.total_equity))).map
          (fun r =>
            { respondent := r.respondent
              respondent_name := r.respondent_name
              year := r.year
              net_income := r.net_income
              total_equity := r.total_equity
              prev_year_equity := r.prev_year_equity
              return_on_equity_pct
                := some (r.net_income / r.total_equity * 100) }) := by
  constructor
  · intro o ho
    rw [roeFinalSelect, List.mem_filter] at ho
    obtain ⟨hom, hsome⟩ := ho
    obtain ⟨r, hr, rfl⟩ := List.mem_map.mp hom
    by_cases hte : 0 < r.total_equity
    · exact ⟨hte, by simp [roeCase, hte]⟩
    · simp [roeCase, hte] at hsome
  · induction rows with
    | nil => rfl
    | cons r rs ih =>
        by_cases hte : 0 < r.total_equity
        · simp [roeFinalSelect, List.filter_cons, roeCase, hte] at ih ⊢
          exact ih
        · simp [roeFinalSelect, List.filter_cons, roeCase, hte] at ih ⊢
          exact ih

theorem claim_C10_witness :
    roeSampleOut ∈ roeFinalSelect roeSampleRows ∧
    0 < roeSampleOut.total_equity ∧
    roeSampleOut.return_on_equity_pct
      = some (roeSampleOut.net_income / roeSampleOut.total_equity * 100) := by
  have hmem : roeSampleOut ∈ roeFinalSelect roeSampleRows := by
    have he : roeFinalSelect roeSampleRows = [roeSampleOut] := by
      simp [roeFinalSelect, roeSampleRows, roeSampleOut, roeCase]
    rw [he]
    exact List.mem_cons_self _ _
  exact ⟨hmem, (claim_C10_roe_guard roeSampleRows).1 roeSampleOut hmem⟩

theorem claim_C8_witness :
    dbFind [("f1_1", (⟨["a"], [[5]]⟩ : DataFrame))] "f1_1"
      = some ⟨["a"], [[5]]⟩ ∧
    ∃ ext, dbFind (runLoader [] [2018]
        [("f1_1", (⟨["a"], [[5]]⟩ : DataFrame))]).1 "f1_1"
      = some ⟨["a"], [[5]] ++ ext⟩ :=
  ⟨rfl, (claim_C8_no_truncate
    [("f1_1", (⟨["a"], [[5]]⟩ : DataFrame))] "f1_1" ⟨["a"], [[5]]⟩ rfl).2.2 [] [2018]⟩

end Form1
